import Mathlib

/-!
Shallow embedding of the Theia `@theia/remote` backend:
`RemoteSetupService` (remote-setup-service.ts), the SSH connection provider
(`remote-ssh-connection-provider.ts`, auth handler and `execPartial`), and the
express proxy contribution (`remote-express-proxy-contribution.ts`).

Strings are modelled as `List Char` (`Str`); JavaScript string truthiness is
non-emptiness.  Remote command execution is modelled by oracles: a function
from the issued command string and the attempt index (within a retry loop)
to the `RemoteExecResult` the remote returns.
-/

namespace TheiaRemote

abbrev Str := List Char

/-- `RemoteExecResult` from remote-types.ts: captured stdout/stderr buffers. -/
structure RemoteExecResult where
  stdout : Str
  stderr : Str
deriving DecidableEq, Repr

/-- JS string truthiness of a buffer. -/
def truthy (s : Str) : Bool := !s.isEmpty

/-- `RemotePlatform` from remote-types.ts: string union `windows | linux | darwin`. -/
inductive RemotePlatform where
  | windows
  | linux
  | darwin
deriving DecidableEq, Repr

/-- The string value carried by a `RemotePlatform` member. -/
def platformStr : RemotePlatform → Str
  | .windows => ("windows").toList
  | .linux => ("linux").toList
  | .darwin => ("darwin").toList

/-- Errors thrown by `RemoteSetupService` (messages abstracted to their payloads). -/
inductive SetupErr where
  | detectFailed (stdout stderr : Str)
  | mkdirFailed (stderr : Str)
  | unzipFailed (stderr : Str)
  | startFailed (stderr : Str)
deriving DecidableEq, Repr

/-- The result record `{ stderr: '', stdout: '' }` initialising `retry`. -/
def emptyResult : RemoteExecResult := ⟨[], []⟩

/-- Loop body of `RemoteSetupService.retry`: `times` remaining attempts, `i` the
index of the next invocation of `action`.  Returns the result together with the
total number of times `action` was invoked. -/
def retryGo (action : Nat → RemoteExecResult) : Nat → Nat → RemoteExecResult × Nat
  | 0, i => (emptyResult, i)
  | times + 1, i =>
    let result := action i
    if truthy result.stderr || truthy result.stdout then (result, i + 1)
    else retryGo action times (i + 1)

/-- `RemoteSetupService.retry(action, times = 20)`.  All attempts that the loop
passes over returned empty stdout and stderr, so returning the initial empty
record when the budget runs out coincides with the source returning the last
attempt's (empty) result. -/
def retry (action : Nat → RemoteExecResult) (times : Nat) : RemoteExecResult × Nat :=
  retryGo action times 0

/-- Default attempt ceiling of `retry`. -/
def RETRY_TIMES : Nat := 20

/-- JS `hay.includes(pat)`: `pat` occurs as a contiguous substring of `hay`. -/
def containsSub (pat : Str) : Str → Bool
  | [] => pat.isEmpty
  | c :: rest => pat.isPrefixOf (c :: rest) || containsSub pat rest

/-- `RemoteSetupService.detectRemotePlatform`, applied to the (already retried)
result of the `uname -s` probe: stderr content means windows, otherwise stdout
content is classified, and anything else throws. -/
def detectRemotePlatform (result : RemoteExecResult) : Except SetupErr RemotePlatform :=
  if truthy result.stderr then .ok .windows
  else if truthy result.stdout then
    if containsSub (("windows32").toList) result.stdout
        || containsSub (("MINGW64").toList) result.stdout then .ok .windows
    else if containsSub (("Linux").toList) result.stdout then .ok .linux
    else if containsSub (("Darwin").toList) result.stdout then .ok .darwin
    else .error (.detectFailed result.stdout result.stderr)
  else .error (.detectFailed result.stdout result.stderr)

/-- Model of one `RemoteConnection` as seen by `RemoteSetupService`: `exec` maps
a full command string and the attempt index within a retry loop to its result;
`execPartialRes` maps a command string to the result that `execPartial`
eventually resolves with; `nodeArchiveCached` tells whether the node archive is
already in the local download cache (`fs.pathExists` in `downloadNode`). -/
structure RemoteModel where
  exec : Str → Nat → RemoteExecResult
  execPartialRes : Str → RemoteExecResult
  nodeArchiveCached : Bool

/-- `this.retry(() => connection.exec(cmd))` with the default ceiling. -/
def execRetried (conn : RemoteModel) (cmd : Str) : RemoteExecResult :=
  (retry (conn.exec cmd) RETRY_TIMES).1

/-- The probe command issued by `dirExistsRemote`: `cd "<path>";echo "Success"`. -/
def dirExistsCmd (remotePath : Str) : Str :=
  ("cd \"").toList ++ remotePath ++ ("\";echo \"Success\"").toList

/-- `RemoteSetupService.dirExistsRemote`: issue the probe (retried) and report
existence as truthiness of the returned stdout. -/
def dirExistsRemote (conn : RemoteModel) (remotePath : Str) : Bool :=
  truthy (execRetried conn (dirExistsCmd remotePath)).stdout

/-- The command issued by `mkdirRemote`: `mkdir[ -p] "<path>";echo "Success"`. -/
def mkdirCmd (platform : RemotePlatform) (remotePath : Str) : Str :=
  ("mkdir").toList
    ++ (if platform ≠ .windows then (" -p").toList else [])
    ++ (" \"").toList ++ remotePath ++ ("\";echo \"Success\"").toList

/-- `RemoteSetupService.mkdirRemote`: non-empty stderr from the retried probe is fatal. -/
def mkdirRemote (conn : RemoteModel) (platform : RemotePlatform) (remotePath : Str) :
    Except SetupErr Unit :=
  let result := execRetried conn (mkdirCmd platform remotePath)
  if truthy result.stderr then .error (.mkdirFailed result.stderr) else .ok ()

/-- JS `String.prototype.trim`. -/
def trimStr (s : Str) : Str :=
  ((s.dropWhile Char.isWhitespace).reverse.dropWhile Char.isWhitespace).reverse

/-- `RemoteSetupService.getRemoteHomeDirectory`. -/
def getRemoteHomeDirectory (conn : RemoteModel) (platform : RemotePlatform) : Str :=
  if platform = .windows then
    let powershellHome := (execRetried conn (("echo $HOME").toList)).stdout
    if powershellHome = ("$HOME").toList then
      trimStr (execRetried conn (("echo %userprofile%").toList)).stdout
    else
      trimStr powershellHome
  else
    trimStr (execRetried conn (("eval echo ~").toList)).stdout

/-- `REMOTE_NODE_VERSION` pinned in remote-setup-service.ts. -/
def REMOTE_NODE_VERSION : Str := ("16.14.0").toList

/-- `RemoteSetupService.getNodeDirectoryName`: `node-v<version>-<platformId>-x64`. -/
def getNodeDirectoryName (platform : RemotePlatform) : Str :=
  let platformId := if platform = .windows then ("win").toList else platformStr platform
  ("node-v").toList ++ REMOTE_NODE_VERSION ++ ('-' :: platformId) ++ ("-x64").toList

/-- `RemoteSetupService.getNodeFileName`: platform-dependent archive extension. -/
def getNodeFileName (platform : RemotePlatform) : Str :=
  let fileExtension :=
    if platform = .windows then ("zip").toList
    else if platform = .darwin then ("tar.gz").toList
    else ("tar.xz").toList
  getNodeDirectoryName platform ++ ('.' :: fileExtension)

/-- `RemoteSetupService.cleanupDirectoryName`: strip `@<>:"\|?*`, then map `/` to `-`. -/
def cleanupDirectoryName (name : Str) : Str :=
  (name.filter
      (fun c => !([ '@', '<', '>', ':', '"', '\\', '|', '?', '*' ].contains c))).map
    (fun c => if c = '/' then '-' else c)

/-- `RemoteSetupService.getRemoteAppName`: `<cleaned app-version>-remote`. -/
def getRemoteAppName (appName appVersion : Str) : Str :=
  cleanupDirectoryName (appName ++ ('-' :: appVersion)) ++ ("-remote").toList

/-- `RemoteSetupService.joinRemotePath`: join with `\` on windows, `/` otherwise. -/
def joinRemotePath (platform : RemotePlatform) (segments : List Str) : Str :=
  let separator := if platform = .windows then ['\\'] else ['/']
  List.intercalate separator segments

/-- Argument escaping in `RemoteSSHConnection.buildCmd`: quote, escaping `"` as `\"`. -/
def escapeArg (arg : Str) : Str :=
  '"' :: (arg.map (fun c => if c = '"' then ['\\', '"'] else [c])).flatten ++ ['"']

/-- `RemoteSSHConnection.buildCmd`: command plus space-joined escaped arguments. -/
def buildCmd (cmd : Str) (args : List Str) : Str :=
  let escapedArgs := args.map escapeArg
  cmd ++ (if escapedArgs.length > 0 then ' ' :: List.intercalate [' '] escapedArgs else [])

/-- `RemoteSetupService.unzipRemote`: a single (non-retried) `tar -xf` invocation;
non-empty stderr is fatal. -/
def unzipRemote (conn : RemoteModel) (remoteFile remoteDirectory : Str) :
    Except SetupErr Unit :=
  let result := conn.exec (buildCmd (("tar -xf").toList) [remoteFile, ("-C").toList, remoteDirectory]) 0
  if truthy result.stderr then .error (.unzipFailed result.stderr) else .ok ()

/-- The literal part of the regex `listening on http:\/\/localhost:(\d+)`. -/
def listeningPrefix : Str := ("listening on http://localhost:").toList

/-- JS `localAddressRegex.exec(s)`: leftmost occurrence of the literal prefix
followed by at least one digit; the capture group is the maximal digit run. -/
def matchLocalAddress : Str → Option Str
  | [] => none
  | c :: rest =>
    if listeningPrefix.isPrefixOf (c :: rest) then
      let ds := ((c :: rest).drop listeningPrefix.length).takeWhile Char.isDigit
      if ds.isEmpty then matchLocalAddress rest else some ds
    else matchLocalAddress rest

/-- JS `Number` on the captured digit string. -/
def digitsToNat (ds : Str) : Nat :=
  ds.foldl (fun acc c => acc * 10 + (c.toNat - ('0').toNat)) 0

/-- `RemoteSetupService.startApplication`: launch the copied backend through the
provisioned node executable and parse the advertised port out of the stdout the
`execPartial` call resolved with.  The tester passed to `execPartial` is the
very regex re-applied here, so the resolved stdout is what gets matched. -/
def startApplication (conn : RemoteModel) (platform : RemotePlatform)
    (remotePath nodeDir : Str) : Except SetupErr Nat :=
  let nodeExecutable := joinRemotePath platform
    [nodeDir, ("bin").toList,
      if platform = .windows then ("node.exe").toList else ("node").toList]
  let mainJsFile := joinRemotePath platform
    [remotePath, ("lib").toList, ("backend").toList, ("main.js").toList]
  let cmd := ("cd \"").toList ++ remotePath ++ ('"' :: ';' :: nodeExecutable)
  let result := conn.execPartialRes
    (buildCmd cmd [mainJsFile, ("--port=0").toList, ("--remote").toList])
  match matchLocalAddress result.stdout with
  | none => .error (.startFailed result.stderr)
  | some ds => .ok (digitsToNat ds)

/-- Provisioning effects performed by one `setup` run: invocations of
`downloadNode` that actually download (cache misses), copies of archives to the
remote (`connection.copy` and `copyService.copyToRemote`), and remote `tar`
extractions (`unzipRemote`). -/
structure SetupCounts where
  downloads : Nat
  copies : Nat
  unzips : Nat
deriving DecidableEq, Repr

/-- Result of a completed `setup` run: the listening port stored into
`connection.remotePort`, plus the provisioning effect counts. -/
structure SetupOutcome where
  port : Nat
  counts : SetupCounts
deriving DecidableEq, Repr

/-- The application directory `setup` derives: `<home>/.<appName>` joined per platform. -/
def setupAppDir (conn : RemoteModel) (appName appVersion : Str)
    (platform : RemotePlatform) : Str :=
  joinRemotePath platform
    [getRemoteHomeDirectory conn platform, '.' :: getRemoteAppName appName appVersion]

/-- The remote node runtime directory `setup` derives. -/
def setupNodeDir (conn : RemoteModel) (appName appVersion : Str)
    (platform : RemotePlatform) : Str :=
  joinRemotePath platform
    [setupAppDir conn appName appVersion platform, getNodeDirectoryName platform]

/-- The remote payload directory (`lib`) `setup` derives. -/
def setupLibDir (conn : RemoteModel) (appName appVersion : Str)
    (platform : RemotePlatform) : Str :=
  joinRemotePath platform [setupAppDir conn appName appVersion platform, ("lib").toList]

/-- `RemoteSetupService.setup`: detect the platform, ensure home/application
directories, provision node and the application payload when their directories
are absent, then start the backend.  Effects are tallied in `SetupCounts`;
`connection.copy` and `copyService.copyToRemote` are modelled as always
succeeding (sftp transport errors are out of scope). -/
def setup (conn : RemoteModel) (appName appVersion : Str) : Except SetupErr SetupOutcome :=
  match detectRemotePlatform (execRetried conn (("uname -s").toList)) with
  | .error e => .error e
  | .ok platform =>
    let applicationDirectory := setupAppDir conn appName appVersion platform
    match mkdirRemote conn platform applicationDirectory with
    | .error e => .error e
    | .ok _ =>
      let nodeStep : Except SetupErr SetupCounts :=
        if dirExistsRemote conn (setupNodeDir conn appName appVersion platform) then
          .ok ⟨0, 0, 0⟩
        else
          let remoteNodeZip :=
            joinRemotePath platform [applicationDirectory, getNodeFileName platform]
          match unzipRemote conn remoteNodeZip applicationDirectory with
          | .error e => .error e
          | .ok _ => .ok ⟨if conn.nodeArchiveCached then 0 else 1, 1, 1⟩
      match nodeStep with
      | .error e => .error e
      | .ok nodeCounts =>
        let libStep : Except SetupErr SetupCounts :=
          if dirExistsRemote conn (setupLibDir conn appName appVersion platform) then
            .ok ⟨0, 0, 0⟩
          else
            let applicationZipFile := joinRemotePath platform
              [applicationDirectory, getRemoteAppName appName appVersion ++ (".tar").toList]
            match unzipRemote conn applicationZipFile applicationDirectory with
            | .error e => .error e
            | .ok _ => .ok ⟨0, 1, 1⟩
        match libStep with
        | .error e => .error e
        | .ok libCounts =>
          match startApplication conn platform applicationDirectory
              (setupNodeDir conn appName appVersion platform) with
          | .error e => .error e
          | .ok port =>
            .ok ⟨port,
              ⟨nodeCounts.downloads + libCounts.downloads,
                nodeCounts.copies + libCounts.copies,
                nodeCounts.unzips + libCounts.unzips⟩⟩

/-- One data event delivered on the exec channel before it closes: a chunk on
stdout or a chunk on stderr, in arrival order. -/
inductive Chunk where
  | out (d : Str)
  | err (d : Str)
deriving DecidableEq, Repr

/-- State of one `execPartial` call: the accumulating buffers, the resolved
value of the deferred (if any), and an instrumentation counter of how many
times the tester was invoked. -/
structure PartialState where
  stdout : Str
  stderr : Str
  resolved : Option RemoteExecResult
  testerCalls : Nat
deriving DecidableEq, Repr

/-- Initial state of `execPartial`: empty buffers, unresolved deferred. -/
def initPartial : PartialState := ⟨[], [], none, 0⟩

/-- `RemoteSSHConnection.execPartial` data handlers: while the deferred is
unresolved, append the chunk to its buffer and run the tester on the
accumulated buffers, resolving when it returns true; once resolved, the
handlers do nothing. -/
def stepChunk (tester : Str → Str → Bool) (s : PartialState) (c : Chunk) : PartialState :=
  match s.resolved with
  | some _ => s
  | none =>
    match c with
    | .out d =>
      let so := s.stdout ++ d
      if tester so s.stderr then ⟨so, s.stderr, some ⟨so, s.stderr⟩, s.testerCalls + 1⟩
      else ⟨so, s.stderr, none, s.testerCalls + 1⟩
    | .err d =>
      let se := s.stderr ++ d
      if tester s.stdout se then ⟨s.stdout, se, some ⟨s.stdout, se⟩, s.testerCalls + 1⟩
      else ⟨s.stdout, se, none, s.testerCalls + 1⟩

/-- Deliver a sequence of data events to the `execPartial` handlers. -/
def runChunks (tester : Str → Str → Bool) (chunks : List Chunk) : PartialState :=
  chunks.foldl (stepChunk tester) initPartial

/-- The value `execPartial` resolves with for a channel that delivers `chunks`
and then closes: the early-resolved value if the tester fired, otherwise the
full accumulated buffers resolved by the close handler. -/
def execPartial (tester : Str → Str → Bool) (chunks : List Chunk) : RemoteExecResult :=
  match (runChunks tester chunks).resolved with
  | some r => r
  | none => ⟨(runChunks tester chunks).stdout, (runChunks tester chunks).stderr⟩

/-- Concatenation of all stdout chunks of an event sequence. -/
def outData (chunks : List Chunk) : Str :=
  (chunks.map (fun c => match c with | .out d => d | .err _ => [])).flatten

/-- Concatenation of all stderr chunks of an event sequence. -/
def errData (chunks : List Chunk) : Str :=
  (chunks.map (fun c => match c with | .out _ => [] | .err d => d)).flatten

/-- Outcome of `ssh2.utils.parseKey`: a usable key, or an error (flagging the
specific `Encrypted private OpenSSH key detected, but no passphrase given`
message that triggers the passphrase prompt loop). -/
inductive ParseResult where
  | success
  | failure (encryptedNoPassphrase : Bool)
deriving DecidableEq, Repr

/-- One identity-file candidate as the auth handler observes it: whether it
already carries decrypted key material, whether its file exists on disk, and
the outcomes of parsing it without and with the k-th entered passphrase. -/
structure SSHKeyModel where
  isPrivate : Bool
  fileExists : Bool
  parsePlain : ParseResult
  parseWithPassphrase : Nat → ParseResult

/-- One invocation of the auth handler, together with the user's responses to
whatever prompts this invocation shows: `methodsLeft` as handed over by ssh2
(`none` models the JS `null`), the passphrase entered at the k-th passphrase
prompt (`none` models a cancelled prompt), the password prompt response, and
the keyboard-interactive round (number of server prompts and the response to
each, `none` modelling a cancelled prompt). -/
structure AuthInvocation where
  methodsLeft : Option (List Str)
  passphraseInput : Nat → Option Str
  passwordInput : Option Str
  kbPromptCount : Nat
  kbResponse : Nat → Option Str

/-- Mutable state captured by the `getAuthHandler` closure: the two retry
budgets and the remaining identity keys; `pwPrompts` instruments the number of
password prompts that have been shown. -/
structure AuthState where
  passwordRetryCount : Int
  keyboardRetryCount : Int
  identityKeys : List SSHKeyModel
  pwPrompts : Nat

/-- Initial closure state: both budgets at 3 (`passwordRetryCount` and
`passphraseRetryCount` fields of the provider), all identity keys remaining. -/
def initAuthState (keys : List SSHKeyModel) : AuthState := ⟨3, 3, keys, 0⟩

/-- What one auth-handler invocation passes to the ssh2 callback: an
authentication submission, `NEXT_AUTH` (the JS `null`), or `END_AUTH` (the JS
`false`, signalling authentication failure). -/
inductive AuthAction where
  | noneAuth (username : Str)
  | publickeyAuth
  | nextAuth
  | passwordAuth (pw : Str)
  | keyboardInteractiveAuth (responses : List Str)
  | endAuth
deriving DecidableEq, Repr

/-- JS truthiness test `!passphrase` on a prompt response: cancelled or empty. -/
def falsyInput : Option Str → Bool
  | none => true
  | some s => s.isEmpty

/-- The passphrase re-parse loop: `while (result instanceof Error && count > 0)`,
prompting, breaking on a falsy passphrase, re-parsing otherwise. -/
def passphraseGo (key : SSHKeyModel) (input : Nat → Option Str) :
    Nat → Nat → ParseResult → ParseResult
  | 0, _, r => r
  | _ + 1, _, .success => .success
  | count + 1, k, .failure e =>
    if falsyInput (input k) then .failure e
    else passphraseGo key input count (k + 1) (key.parseWithPassphrase k)

/-- Parsing of an on-disk key inside the publickey branch: parse without a
passphrase first; only the specific encrypted-key error starts the prompt loop
(budget 3, i.e. `this.passphraseRetryCount`). -/
def parseKeyWithPrompts (key : SSHKeyModel) (input : Nat → Option Str) : ParseResult :=
  match key.parsePlain with
  | .failure true => passphraseGo key input 3 0 (.failure true)
  | r => r

/-- The method-name strings tested via `methodsLeft.includes(...)`. -/
def pkStr : Str := ("publickey").toList

/-- The `password` method name. -/
def pwStr : Str := ("password").toList

/-- The `keyboard-interactive` method name. -/
def kbStr : Str := ("keyboard-interactive").toList

/-- The keyboard-interactive prompt loop: collect responses in order, stopping
at the first cancelled prompt (which also zeroes the budget). -/
def kbCollect (input : Nat → Option Str) : Nat → Nat → List Str × Bool
  | 0, _ => ([], false)
  | n + 1, k =>
    match input k with
    | none => ([], true)
    | some s =>
      let rest := kbCollect input n (k + 1)
      (s :: rest.1, rest.2)

/-- The password / keyboard-interactive / `END_AUTH` tail of the auth handler,
reached when the publickey branch guard does not apply. -/
def authHandlerNoPk (inv : AuthInvocation) (s : AuthState) (ms : List Str) :
    AuthAction × AuthState :=
  if ms.contains pwStr && decide (s.passwordRetryCount > 0) then
    let s' := { s with
      passwordRetryCount := s.passwordRetryCount - 1, pwPrompts := s.pwPrompts + 1 }
    match inv.passwordInput with
    | none => (.endAuth, s')
    | some pw => if pw.isEmpty then (.endAuth, s') else (.passwordAuth pw, s')
  else if ms.contains kbStr && decide (s.keyboardRetryCount > 0) then
    let collected := kbCollect inv.kbResponse inv.kbPromptCount 0
    let newCount := (if collected.2 then 0 else s.keyboardRetryCount) - 1
    (.keyboardInteractiveAuth collected.1, { s with keyboardRetryCount := newCount })
  else (.endAuth, s)

/-- The publickey branch of the handler returned by
`RemoteSSHConnectionProviderImpl.getAuthHandler`: the head candidate has been
shifted off the list; already-decrypted material is submitted directly, a
missing key file or an unusable parse result moves on with `NEXT_AUTH`, and an
encrypted key goes through the passphrase prompt loop. -/
def authHandlerPk (inv : AuthInvocation) (s : AuthState) (key : SSHKeyModel)
    (restKeys : List SSHKeyModel) : AuthAction × AuthState :=
  let s' := { s with identityKeys := restKeys }
  if key.isPrivate then (.publickeyAuth, s')
  else if !key.fileExists then (.nextAuth, s')
  else
    match parseKeyWithPrompts key inv.passphraseInput with
    | .success => (.publickeyAuth, s')
    | .failure _ => (.nextAuth, s')

/-- Dispatch of one auth-handler invocation over `methodsLeft` and the
remaining identity keys. -/
def authHandler (user : Str) (inv : AuthInvocation) (s : AuthState) :
    AuthAction × AuthState :=
  match inv.methodsLeft with
  | none => (.noneAuth user, s)
  | some ms =>
    match s.identityKeys with
    | key :: restKeys =>
      if ms.contains pkStr then authHandlerPk inv s key restKeys
      else authHandlerNoPk inv s ms
    | [] => authHandlerNoPk inv s ms

/-- Fold a sequence of auth-handler invocations, collecting the action passed
to the ssh2 callback at each invocation and the final closure state. -/
def runAuthTrace (user : Str) (invs : List AuthInvocation) (s : AuthState) :
    List AuthAction × AuthState :=
  match invs with
  | [] => ([], s)
  | inv :: rest =>
    let step := authHandler user inv s
    let tail := runAuthTrace user rest step.2
    (step.1 :: tail.1, tail.2)

/-- Whether an action submits the password method. -/
def isPasswordAuth : AuthAction → Bool
  | .passwordAuth _ => true
  | _ => false

/-- One entry of the `RemoteConnectionService` map, as read by the status
endpoint: id, human-readable name, connection type. -/
structure RegisteredConnection where
  id : Str
  name : Str
  type : Str
deriving DecidableEq, Repr

/-- `RemoteConnectionService.getConnection`: lookup of a live connection by id. -/
def getConnection (registry : List RegisteredConnection) (rid : Str) :
    Option RegisteredConnection :=
  registry.find? (fun c => c.id = rid)

/-- The JSON body sent by the `GET /remote/status` handler. -/
structure StatusBody where
  alive : Bool
  name : Option Str
  type : Option Str
deriving DecidableEq, Repr

/-- One proxy middleware installed by `setupProxyRouter`: the session id its
filter closure captured (`remote.id`) and the local proxy-server port it
forwards to. -/
structure ProxyEntry where
  sessionId : Str
  port : Nat
deriving DecidableEq, Repr

/-- HTTP method of an inbound request (only GET is distinguished by the code). -/
inductive HttpMethod where
  | get
  | other
deriving DecidableEq, Repr

/-- An inbound request as the express layers see it: method, path, and the
`remoteId` cookie extracted by `getCookies` (`none` when absent). -/
structure Request where
  method : HttpMethod
  path : Str
  remoteIdCookie : Option Str
deriving DecidableEq, Repr

/-- The `GET /remote/status` handler body from
`RemoteExpressProxyContribution.configure`: a truthy cookie that maps to a
registered connection answers `{alive: true, name, type}`, anything else
answers `{alive: false}`. -/
def statusHandler (registry : List RegisteredConnection) (req : Request) : StatusBody :=
  match req.remoteIdCookie with
  | some rid =>
    if rid.isEmpty then ⟨false, none, none⟩
    else
      match getConnection registry rid with
      | some remote => ⟨true, some remote.name, some remote.type⟩
      | none => ⟨false, none, none⟩
  | none => ⟨false, none, none⟩

/-- The `filter` closure of the `expressHttpProxy` middleware installed by
`setupProxyRouter`: forward exactly when the request's `remoteId` cookie equals
the captured session id (`remoteId === remote.id`). -/
def proxyFilter (entry : ProxyEntry) (req : Request) : Bool :=
  req.remoteIdCookie = some entry.sessionId

/-- Possible dispositions of one inbound request. -/
inductive RouteOutcome where
  | statusResponse (body : StatusBody)
  | forwarded (port : Nat)
  | fallthrough
deriving DecidableEq, Repr

/-- The express pipeline assembled by `configure` and `setupProxyRouter`: the
status route (registered first, spliced ahead of the proxy layers) answers
`GET /remote/status` locally; otherwise the first proxy middleware whose filter
accepts the request forwards it to its port; otherwise the request falls
through to the default handlers. -/
def routeRequest (registry : List RegisteredConnection) (proxies : List ProxyEntry)
    (req : Request) : RouteOutcome :=
  if req.method = .get ∧ req.path = ("/remote/status").toList then
    .statusResponse (statusHandler registry req)
  else
    match proxies.find? (fun e => proxyFilter e req) with
    | some e => .forwarded e.port
    | none => .fallthrough

/-- Backend resources held per session, each component listing the ids of the
sessions currently owning one: open proxy servers, proxy layers in the express
router stack, and entries of the connection registry. -/
structure BackendWorld where
  servers : List Str
  routerStack : List Str
  registry : List Str
deriving DecidableEq, Repr

/-- `server.close()` for the session's proxy server. -/
def closeServer (id : Str) (w : BackendWorld) : BackendWorld :=
  { w with servers := w.servers.erase id }

/-- `proxyRouter.dispose()`: the disposable returned by `spliceRouter` splices
the session's proxy layer out of the router stack
(`routerStack.splice(routerStack.indexOf(router), 1)`). -/
def disposeProxyRouter (id : Str) (w : BackendWorld) : BackendWorld :=
  { w with routerStack := w.routerStack.erase id }

/-- Modelled from the spec: `registration.dispose()` — `RemoteConnectionService`
(not among the sources) returns from `register` a handle whose disposal removes
the connection's entry from the registry (§4.4). -/
def disposeRegistration (id : Str) (w : BackendWorld) : BackendWorld :=
  { w with registry := w.registry.erase id }

/-- The `remote.onDidDisconnect` handler installed by
`RemoteSSHConnectionProviderImpl.establishConnection`: close the proxy server,
dispose the proxy router, dispose the registry registration. -/
def onDisconnect (id : Str) (w : BackendWorld) : BackendWorld :=
  disposeRegistration id (disposeProxyRouter id (closeServer id w))

theorem truthy_eq_true_iff (s : Str) : truthy s = true ↔ s ≠ [] := by
  cases s <;> simp [truthy]

theorem truthy_eq_false_iff (s : Str) : truthy s = false ↔ s = [] := by
  cases s <;> simp [truthy]

theorem retry_cond_false_iff (r : RemoteExecResult) :
    (truthy r.stderr || truthy r.stdout) = false ↔ r.stdout = [] ∧ r.stderr = [] := by
  rcases r with ⟨so, se⟩
  cases so <;> cases se <;> simp [truthy]

theorem retryGo_snd_le (action : Nat → RemoteExecResult) :
    ∀ times i, (retryGo action times i).2 ≤ i + times := by
  intro times
  induction times with
  | zero => intro i; simp [retryGo]
  | succ t ih =>
    intro i
    simp only [retryGo]
    split
    · simp
    · have := ih (i + 1); omega

theorem retryGo_all_empty (action : Nat → RemoteExecResult) :
    ∀ times i, (∀ k, k < times → (action (i + k)).stdout = [] ∧ (action (i + k)).stderr = []) →
      retryGo action times i = (emptyResult, i + times) := by
  intro times
  induction times with
  | zero => intro i _; simp [retryGo]
  | succ t ih =>
    intro i h
    have h0 : (action i).stdout = [] ∧ (action i).stderr = [] := by
      have := h 0 (Nat.succ_pos t)
      simpa using this
    simp only [retryGo]
    rw [if_neg]
    · have := ih (i + 1) (fun k hk => by
        have := h (k + 1) (by omega)
        have e : i + (k + 1) = i + 1 + k := by omega
        rw [e] at this
        exact this)
      rw [this]
      congr 1
      omega
    · rw [Bool.not_eq_true, retry_cond_false_iff]
      exact h0

theorem retryGo_first_nonempty (action : Nat → RemoteExecResult) :
    ∀ j times i, j < times →
      (∀ k, k < j → (action (i + k)).stdout = [] ∧ (action (i + k)).stderr = []) →
      ¬((action (i + j)).stdout = [] ∧ (action (i + j)).stderr = []) →
      retryGo action times i = (action (i + j), i + j + 1) := by
  intro j
  induction j with
  | zero =>
    intro times i hlt _ hne
    cases times with
    | zero => omega
    | succ t =>
      simp only [retryGo]
      rw [if_pos]
      · simp
      · rcases Bool.eq_false_or_eq_true (truthy (action i).stderr || truthy (action i).stdout)
          with hc | hc
        · exact hc
        · exact absurd ((retry_cond_false_iff (action i)).1 hc) (by simpa using hne)
  | succ j ih =>
    intro times i hlt hprev hne
    cases times with
    | zero => omega
    | succ t =>
      have h0 : (action i).stdout = [] ∧ (action i).stderr = [] := by
        have := hprev 0 (Nat.succ_pos j)
        simpa using this
      simp only [retryGo]
      rw [if_neg]
      · have e1 : i + 1 + j = i + (j + 1) := by omega
        have := ih t (i + 1) (by omega)
          (fun k hk => by
            have := hprev (k + 1) (by omega)
            have e : i + (k + 1) = i + 1 + k := by omega
            rw [e] at this
            exact this)
          (by rw [e1]; exact hne)
        rw [this, e1]
      · rw [Bool.not_eq_true, retry_cond_false_iff]
        exact h0

/-- C4: for every probe action, `retry` invokes the action at most 20 times (the
default ceiling): it returns the first result with non-empty stdout or stderr,
and when all 20 attempts return both streams empty it terminates and returns
the empty result. -/
theorem retry_bounded_attempts (action : Nat → RemoteExecResult) :
    (retry action 20).2 ≤ 20 ∧
    (∀ j, j < 20 →
      (∀ k, k < j → (action k).stdout = [] ∧ (action k).stderr = []) →
      ¬((action j).stdout = [] ∧ (action j).stderr = []) →
      retry action 20 = (action j, j + 1)) ∧
    ((∀ k, k < 20 → (action k).stdout = [] ∧ (action k).stderr = []) →
      retry action 20 = (emptyResult, 20)) := by
  refine ⟨?_, ?_, ?_⟩
  · have := retryGo_snd_le action 20 0
    simpa [retry] using this
  · intro j hj hprev hne
    have := retryGo_first_nonempty action j 20 0 hj
      (fun k hk => by simpa using hprev k hk) (by simpa using hne)
    simpa [retry] using this
  · intro h
    have := retryGo_all_empty action 20 0 (fun k hk => by simpa using h k hk)
    simpa [retry] using this

/-- C4 witness: an action that first produces output on its third invocation. -/
theorem retry_bounded_attempts_witness :
    retry (fun i => if i = 2 then ⟨("x").toList, []⟩ else ⟨[], []⟩) 20
      = (⟨("x").toList, []⟩, 3) := by
  have h := (retry_bounded_attempts
    (fun i => if i = 2 then ⟨("x").toList, []⟩ else ⟨[], []⟩)).2.1 2
    (by decide)
    (by intro k hk; interval_cases k <;> simp)
    (by simp)
  simpa using h

theorem containsSub_nil (pat : Str) : containsSub pat [] = pat.isEmpty := rfl

theorem ne_nil_of_containsSub (pat : Str) (hp : pat ≠ []) (s : Str)
    (h : containsSub pat s = true) : s ≠ [] := by
  intro hs
  subst hs
  rw [containsSub_nil] at h
  exact hp (List.isEmpty_iff.1 h)

theorem detect_of_stderr (r : RemoteExecResult) (h : r.stderr ≠ []) :
    detectRemotePlatform r = .ok .windows := by
  unfold detectRemotePlatform
  rw [if_pos ((truthy_eq_true_iff _).2 h)]

theorem detect_of_win (r : RemoteExecResult) (hse : r.stderr = [])
    (h : containsSub (("windows32").toList) r.stdout = true ∨
      containsSub (("MINGW64").toList) r.stdout = true) :
    detectRemotePlatform r = .ok .windows := by
  have hso : r.stdout ≠ [] := by
    rcases h with h | h
    · exact ne_nil_of_containsSub _ (by simp) _ h
    · exact ne_nil_of_containsSub _ (by simp) _ h
  unfold detectRemotePlatform
  rw [if_neg (by rw [truthy_eq_true_iff]; simpa using hse),
    if_pos ((truthy_eq_true_iff _).2 hso), if_pos]
  rcases h with h | h
  · rw [Bool.or_eq_true]
    exact Or.inl h
  · rw [Bool.or_eq_true]
    exact Or.inr h

theorem detect_of_linux (r : RemoteExecResult) (hse : r.stderr = [])
    (h1 : containsSub (("windows32").toList) r.stdout = false)
    (h2 : containsSub (("MINGW64").toList) r.stdout = false)
    (h3 : containsSub (("Linux").toList) r.stdout = true) :
    detectRemotePlatform r = .ok .linux := by
  have hso : r.stdout ≠ [] := ne_nil_of_containsSub _ (by simp) _ h3
  unfold detectRemotePlatform
  rw [if_neg (by rw [truthy_eq_true_iff]; simpa using hse),
    if_pos ((truthy_eq_true_iff _).2 hso), if_neg (by rw [h1, h2]; simp), if_pos h3]

theorem detect_of_darwin (r : RemoteExecResult) (hse : r.stderr = [])
    (h1 : containsSub (("windows32").toList) r.stdout = false)
    (h2 : containsSub (("MINGW64").toList) r.stdout = false)
    (h3 : containsSub (("Linux").toList) r.stdout = false)
    (h4 : containsSub (("Darwin").toList) r.stdout = true) :
    detectRemotePlatform r = .ok .darwin := by
  have hso : r.stdout ≠ [] := ne_nil_of_containsSub _ (by simp) _ h4
  unfold detectRemotePlatform
  rw [if_neg (by rw [truthy_eq_true_iff]; simpa using hse),
    if_pos ((truthy_eq_true_iff _).2 hso), if_neg (by rw [h1, h2]; simp),
    if_neg (by rw [h3]; simp), if_pos h4]

theorem detect_of_no_match (r : RemoteExecResult) (hse : r.stderr = [])
    (h1 : containsSub (("windows32").toList) r.stdout = false)
    (h2 : containsSub (("MINGW64").toList) r.stdout = false)
    (h3 : containsSub (("Linux").toList) r.stdout = false)
    (h4 : containsSub (("Darwin").toList) r.stdout = false) :
    detectRemotePlatform r = .error (.detectFailed r.stdout r.stderr) := by
  unfold detectRemotePlatform
  rw [if_neg (by rw [truthy_eq_true_iff]; simpa using hse)]
  by_cases hso : r.stdout = []
  · rw [if_neg (by rw [truthy_eq_true_iff]; simpa using hso)]
  · rw [if_pos ((truthy_eq_true_iff _).2 hso), if_neg (by rw [h1, h2]; simp),
      if_neg (by rw [h3]; simp), if_neg (by rw [h4]; simp)]

/-- C7: every platform-probe result is classified as windows (non-empty stderr,
or stdout containing `windows32` or `MINGW64`), linux (stdout containing
`Linux`), or darwin (stdout containing `Darwin`), in the priority order of the
source; every result matching none of these classifications throws a fatal
detection error. -/
theorem detect_platform_classification (r : RemoteExecResult) :
    (r.stderr ≠ [] → detectRemotePlatform r = .ok .windows) ∧
    (r.stderr = [] →
      ((containsSub (("windows32").toList) r.stdout = true ∨
          containsSub (("MINGW64").toList) r.stdout = true) →
        detectRemotePlatform r = .ok .windows) ∧
      (containsSub (("windows32").toList) r.stdout = false →
        containsSub (("MINGW64").toList) r.stdout = false →
        containsSub (("Linux").toList) r.stdout = true →
        detectRemotePlatform r = .ok .linux) ∧
      (containsSub (("windows32").toList) r.stdout = false →
        containsSub (("MINGW64").toList) r.stdout = false →
        containsSub (("Linux").toList) r.stdout = false →
        containsSub (("Darwin").toList) r.stdout = true →
        detectRemotePlatform r = .ok .darwin) ∧
      (containsSub (("windows32").toList) r.stdout = false →
        containsSub (("MINGW64").toList) r.stdout = false →
        containsSub (("Linux").toList) r.stdout = false →
        containsSub (("Darwin").toList) r.stdout = false →
        detectRemotePlatform r = .error (.detectFailed r.stdout r.stderr))) ∧
    ((∃ p, detectRemotePlatform r = .ok p) ↔
      (r.stderr ≠ [] ∨ containsSub (("windows32").toList) r.stdout = true ∨
        containsSub (("MINGW64").toList) r.stdout = true ∨
        containsSub (("Linux").toList) r.stdout = true ∨
        containsSub (("Darwin").toList) r.stdout = true)) := by
  refine ⟨detect_of_stderr r, ?_, ?_, ?_⟩
  · intro hse
    exact ⟨detect_of_win r hse, detect_of_linux r hse, detect_of_darwin r hse,
      detect_of_no_match r hse⟩
  · rintro ⟨p, hp⟩
    by_contra hnot
    push_neg at hnot
    obtain ⟨hse, hw1, hw2, hl, hd⟩ := hnot
    rw [detect_of_no_match r hse
      (Bool.not_eq_true _ ▸ hw1) (Bool.not_eq_true _ ▸ hw2)
      (Bool.not_eq_true _ ▸ hl) (Bool.not_eq_true _ ▸ hd)] at hp
    exact Except.noConfusion hp
  · intro h
    by_cases hse : r.stderr = []
    · by_cases hw1 : containsSub (("windows32").toList) r.stdout = true
      · exact ⟨.windows, detect_of_win r hse (Or.inl hw1)⟩
      · by_cases hw2 : containsSub (("MINGW64").toList) r.stdout = true
        · exact ⟨.windows, detect_of_win r hse (Or.inr hw2)⟩
        · by_cases hl : containsSub (("Linux").toList) r.stdout = true
          · exact ⟨.linux, detect_of_linux r hse
              (Bool.not_eq_true _ ▸ hw1) (Bool.not_eq_true _ ▸ hw2) hl⟩
          · by_cases hd : containsSub (("Darwin").toList) r.stdout = true
            · exact ⟨.darwin, detect_of_darwin r hse
                (Bool.not_eq_true _ ▸ hw1) (Bool.not_eq_true _ ▸ hw2)
                (Bool.not_eq_true _ ▸ hl) hd⟩
            · rcases h with h | h | h | h | h
              · exact absurd hse (by simpa using h)
              · exact absurd h hw1
              · exact absurd h hw2
              · exact absurd h hl
              · exact absurd h hd
    · exact ⟨.windows, detect_of_stderr r hse⟩

/-- C7 witness: a probe result whose stdout contains `Linux` with empty stderr. -/
theorem detect_platform_classification_witness :
    detectRemotePlatform ⟨("Linux").toList, []⟩ = .ok .linux :=
  ((detect_platform_classification ⟨("Linux").toList, []⟩).2.1 rfl).2.1
    (by decide) (by decide) (by decide)

/-- C10: whenever the probe's stderr is non-empty, `detectRemotePlatform`
returns windows unconditionally — the stderr check has priority over any
stdout content. -/
theorem detect_stderr_windows_priority (r : RemoteExecResult) (h : r.stderr ≠ []) :
    detectRemotePlatform r = .ok .windows := by
  unfold detectRemotePlatform
  rw [if_pos ((truthy_eq_true_iff _).2 h)]

/-- C10 witness: stdout says `Linux`, yet any stderr content forces windows. -/
theorem detect_stderr_windows_priority_witness :
    detectRemotePlatform ⟨("Linux").toList, ("err").toList⟩ = .ok .windows :=
  detect_stderr_windows_priority ⟨("Linux").toList, ("err").toList⟩ (by decide)

/-- C9: `dirExistsRemote` reports existence exactly when the stdout of the
retried probe is non-empty (its stderr plays no role in the verdict); the probe
command is literally `cd "<path>";echo "Success"` with the echo sequenced by
`;`, so any execution whose attempts all print `Success` is classified as
existing. -/
theorem dir_exists_probe_stdout (conn : RemoteModel) (p : Str) :
    (dirExistsRemote conn p = true ↔ (execRetried conn (dirExistsCmd p)).stdout ≠ []) ∧
    dirExistsCmd p = ("cd \"").toList ++ p ++ ("\";echo \"Success\"").toList ∧
    ((∀ i, containsSub (("Success").toList) ((conn.exec (dirExistsCmd p) i).stdout) = true) →
      dirExistsRemote conn p = true) := by
  refine ⟨?_, rfl, ?_⟩
  · unfold dirExistsRemote
    exact truthy_eq_true_iff _
  · intro h
    have h0 : (conn.exec (dirExistsCmd p) 0).stdout ≠ [] :=
      ne_nil_of_containsSub _ (by simp) _ (h 0)
    have hr := retryGo_first_nonempty (conn.exec (dirExistsCmd p)) 0 20 0
      (by omega) (fun k hk => absurd hk (Nat.not_lt_zero k))
      (by intro hc; exact h0 hc.1)
    unfold dirExistsRemote execRetried retry RETRY_TIMES
    rw [hr]
    exact (truthy_eq_true_iff _).2 h0

/-- C9 witness: a remote whose probe always prints `Success` is classified as
existing. -/
theorem dir_exists_probe_stdout_witness :
    dirExistsRemote
      ⟨fun _ _ => ⟨("Success").toList, []⟩, fun _ => ⟨[], []⟩, true⟩
      (("/home/user/dir").toList) = true :=
  (dir_exists_probe_stdout
      ⟨fun _ _ => ⟨("Success").toList, []⟩, fun _ => ⟨[], []⟩, true⟩
      (("/home/user/dir").toList)).2.2 (fun _ => rfl)

theorem stepChunk_frozen (tester : Str → Str → Bool) (s : PartialState) (c : Chunk)
    (r : RemoteExecResult) (h : s.resolved = some r) : stepChunk tester s c = s := by
  unfold stepChunk
  rw [h]

theorem foldl_frozen (tester : Str → Str → Bool) :
    ∀ (chunks : List Chunk) (s : PartialState) (r : RemoteExecResult),
      s.resolved = some r → chunks.foldl (stepChunk tester) s = s := by
  intro chunks
  induction chunks with
  | nil => intro s r _; rfl
  | cons c rest ih =>
    intro s r h
    simp only [List.foldl_cons]
    rw [stepChunk_frozen tester s c r h]
    exact ih s r h

theorem stepChunk_tester_true (tester : Str → Str → Bool) (s : PartialState) (c : Chunk)
    (hs : ∀ r', s.resolved = some r' → tester r'.stdout r'.stderr = true) :
    ∀ r, (stepChunk tester s c).resolved = some r → tester r.stdout r.stderr = true := by
  intro r h
  cases hres : s.resolved with
  | some r' =>
    rw [stepChunk_frozen tester s c r' hres] at h
    exact hs r h
  | none =>
    cases c with
    | out d =>
      simp only [stepChunk, hres] at h
      split at h
      · simp only [PartialState.resolved] at h
        cases h
        assumption
      · simp at h
    | err d =>
      simp only [stepChunk, hres] at h
      split at h
      · simp only [PartialState.resolved] at h
        cases h
        assumption
      · simp at h

theorem foldl_tester_true (tester : Str → Str → Bool) :
    ∀ (chunks : List Chunk) (s : PartialState),
      (∀ r', s.resolved = some r' → tester r'.stdout r'.stderr = true) →
      ∀ r, (chunks.foldl (stepChunk tester) s).resolved = some r →
        tester r.stdout r.stderr = true := by
  intro chunks
  induction chunks with
  | nil => intro s hs r h; exact hs r h
  | cons c rest ih =>
    intro s hs r h
    simp only [List.foldl_cons] at h
    exact ih (stepChunk tester s c) (stepChunk_tester_true tester s c hs) r h

theorem foldl_unresolved_buffers (tester : Str → Str → Bool) :
    ∀ (chunks : List Chunk) (s : PartialState),
      (chunks.foldl (stepChunk tester) s).resolved = none →
      (chunks.foldl (stepChunk tester) s).stdout = s.stdout ++ outData chunks ∧
      (chunks.foldl (stepChunk tester) s).stderr = s.stderr ++ errData chunks := by
  intro chunks
  induction chunks with
  | nil => intro s _; simp [outData, errData]
  | cons c rest ih =>
    intro s h
    simp only [List.foldl_cons] at h ⊢
    have hstep : (stepChunk tester s c).resolved = none := by
      cases hres : (stepChunk tester s c).resolved with
      | none => rfl
      | some r =>
        rw [foldl_frozen tester rest (stepChunk tester s c) r hres] at h
        rw [hres] at h
        cases h
    have hrec := ih (stepChunk tester s c) h
    cases hsres : s.resolved with
    | some r =>
      rw [stepChunk_frozen tester s c r hsres] at hstep
      rw [hsres] at hstep
      cases hstep
    | none =>
      cases c with
      | out d =>
        by_cases ht : tester (s.stdout ++ d) s.stderr = true
        · simp only [stepChunk, hsres, if_pos ht] at hstep
          simp at hstep
        · simp only [stepChunk, hsres, if_neg ht] at hrec ⊢
          constructor
          · rw [hrec.1]
            simp [outData, List.append_assoc]
          · rw [hrec.2]
            simp [errData]
      | err d =>
        by_cases ht : tester s.stdout (s.stderr ++ d) = true
        · simp only [stepChunk, hsres, if_pos ht] at hstep
          simp at hstep
        · simp only [stepChunk, hsres, if_neg ht] at hrec ⊢
          constructor
          · rw [hrec.1]
            simp [outData]
          · rw [hrec.2]
            simp [errData, List.append_assoc]

/-- C2: once the tester first returns true, `execPartial` resolves with the
buffers accumulated at that moment: delivering further chunks before the close
neither changes the resolved value nor invokes the tester again; and when the
tester never fires, the close resolves with the full accumulated buffers. -/
theorem execPartial_resolves_at_first_true (tester : Str → Str → Bool)
    (chunks extra : List Chunk) :
    (∀ r, (runChunks tester chunks).resolved = some r →
      execPartial tester (chunks ++ extra) = r ∧
      execPartial tester chunks = r ∧
      tester r.stdout r.stderr = true ∧
      (runChunks tester (chunks ++ extra)).testerCalls
        = (runChunks tester chunks).testerCalls) ∧
    ((runChunks tester chunks).resolved = none →
      execPartial tester chunks = ⟨outData chunks, errData chunks⟩) := by
  constructor
  · intro r h
    have hfrozen : runChunks tester (chunks ++ extra) = runChunks tester chunks := by
      unfold runChunks
      rw [List.foldl_append]
      exact foldl_frozen tester extra _ r h
    refine ⟨?_, ?_, ?_, ?_⟩
    · unfold execPartial
      rw [hfrozen, h]
    · unfold execPartial
      rw [h]
    · exact foldl_tester_true tester chunks initPartial (by intro r' h'; cases h') r h
    · rw [hfrozen]
  · intro h
    have hb := foldl_unresolved_buffers tester chunks initPartial h
    unfold execPartial
    rw [h]
    unfold runChunks at hb ⊢
    rw [hb.1, hb.2]
    rfl

/-- C2 witness: the tester fires on the first chunk; a later chunk neither
changes the resolved value nor re-invokes the tester. -/
theorem execPartial_resolves_at_first_true_witness :
    execPartial (fun so _ => !so.isEmpty) [.out (("a").toList), .out (("b").toList)]
        = ⟨("a").toList, []⟩ ∧
      (runChunks (fun so _ => !so.isEmpty)
          [.out (("a").toList), .out (("b").toList)]).testerCalls
        = (runChunks (fun so _ => !so.isEmpty) [.out (("a").toList)]).testerCalls := by
  have h := (execPartial_resolves_at_first_true (fun so _ => !so.isEmpty)
    [.out (("a").toList)] [.out (("b").toList)]).1 ⟨("a").toList, []⟩ rfl
  exact ⟨h.1, h.2.2.2⟩

/-- C1: for every remote state in which both the runtime directory and the
payload (`lib`) directory already exist (both existence probes answer
positively), a full `setup` run performs zero node-archive downloads, zero
copies to the remote and zero remote extractions, and still completes by
storing the listening port parsed from the launched backend's stdout. -/
theorem setup_second_run_idempotent (conn : RemoteModel) (appName appVersion : Str)
    (platform : RemotePlatform) (port : Nat)
    (hdet : detectRemotePlatform (execRetried conn (("uname -s").toList)) = .ok platform)
    (hmkdir : mkdirRemote conn platform (setupAppDir conn appName appVersion platform) = .ok ())
    (hnode : dirExistsRemote conn (setupNodeDir conn appName appVersion platform) = true)
    (hlib : dirExistsRemote conn (setupLibDir conn appName appVersion platform) = true)
    (hstart : startApplication conn platform (setupAppDir conn appName appVersion platform)
        (setupNodeDir conn appName appVersion platform) = .ok port) :
    setup conn appName appVersion = .ok ⟨port, ⟨0, 0, 0⟩⟩ := by
  unfold setup
  rw [hdet]
  dsimp only
  rw [hmkdir, hnode, hlib, hstart]
  rfl

/-- C1 witness: a remote on which every probe reports existing directories and
the backend immediately advertises port 3000; the second run provisions
nothing. -/
theorem setup_second_run_idempotent_witness :
    setup
      ⟨fun _ _ => ⟨("Linux").toList, []⟩,
        fun _ => ⟨("listening on http://localhost:3000").toList, []⟩, true⟩
      (("theia").toList) (("1.55.0").toList) = .ok ⟨3000, ⟨0, 0, 0⟩⟩ :=
  setup_second_run_idempotent
    ⟨fun _ _ => ⟨("Linux").toList, []⟩,
      fun _ => ⟨("listening on http://localhost:3000").toList, []⟩, true⟩
    (("theia").toList) (("1.55.0").toList) .linux 3000 rfl rfl rfl rfl rfl

theorem authHandler_eq_none (user : Str) (inv : AuthInvocation) (s : AuthState)
    (h : inv.methodsLeft = none) : authHandler user inv s = (.noneAuth user, s) := by
  unfold authHandler
  rw [h]

theorem authHandler_eq_pk (user : Str) (inv : AuthInvocation) (s : AuthState)
    (ms : List Str) (key : SSHKeyModel) (restKeys : List SSHKeyModel)
    (hml : inv.methodsLeft = some ms) (hk : s.identityKeys = key :: restKeys)
    (hpk : ms.contains pkStr = true) :
    authHandler user inv s = authHandlerPk inv s key restKeys := by
  unfold authHandler
  rw [hml, hk]
  dsimp only
  rw [if_pos hpk]

theorem authHandler_eq_noPk (user : Str) (inv : AuthInvocation) (s : AuthState)
    (ms : List Str) (hml : inv.methodsLeft = some ms)
    (h : ¬(ms.contains pkStr = true ∧ s.identityKeys ≠ [])) :
    authHandler user inv s = authHandlerNoPk inv s ms := by
  unfold authHandler
  rw [hml]
  cases hk : s.identityKeys with
  | nil => rfl
  | cons key restKeys =>
    dsimp only
    rw [if_neg]
    intro hpk
    exact h ⟨hpk, by rw [hk]; simp⟩

theorem authHandlerPk_step (inv : AuthInvocation) (s : AuthState) (key : SSHKeyModel)
    (restKeys : List SSHKeyModel) :
    (authHandlerPk inv s key restKeys).2 = { s with identityKeys := restKeys } ∧
    ((authHandlerPk inv s key restKeys).1 = .publickeyAuth ∨
      (authHandlerPk inv s key restKeys).1 = .nextAuth) := by
  unfold authHandlerPk
  by_cases h1 : key.isPrivate = true
  · rw [if_pos h1]
    exact ⟨rfl, Or.inl rfl⟩
  · rw [if_neg h1]
    by_cases h2 : (!key.fileExists) = true
    · rw [if_pos h2]
      exact ⟨rfl, Or.inr rfl⟩
    · rw [if_neg h2]
      cases parseKeyWithPrompts key inv.passphraseInput with
      | success => exact ⟨rfl, Or.inl rfl⟩
      | failure e => exact ⟨rfl, Or.inr rfl⟩

theorem authHandlerNoPk_pw_step (inv : AuthInvocation) (s : AuthState) (ms : List Str) :
    ((authHandlerNoPk inv s ms).2.passwordRetryCount
        + ((authHandlerNoPk inv s ms).2.pwPrompts : Int)
      = s.passwordRetryCount + (s.pwPrompts : Int)) ∧
    (authHandlerNoPk inv s ms).2.passwordRetryCount ≤ s.passwordRetryCount ∧
    (0 ≤ s.passwordRetryCount → 0 ≤ (authHandlerNoPk inv s ms).2.passwordRetryCount) ∧
    (isPasswordAuth (authHandlerNoPk inv s ms).1 = true →
      s.pwPrompts + 1 ≤ (authHandlerNoPk inv s ms).2.pwPrompts) ∧
    (s.pwPrompts ≤ (authHandlerNoPk inv s ms).2.pwPrompts) := by
  unfold authHandlerNoPk
  by_cases hpw : (ms.contains pwStr && decide (s.passwordRetryCount > 0)) = true
  · rw [if_pos hpw]
    have hc : s.passwordRetryCount > 0 := by
      simp only [Bool.and_eq_true, decide_eq_true_eq] at hpw
      exact hpw.2
    cases inv.passwordInput with
    | none =>
      refine ⟨?_, ?_, ?_, ?_, ?_⟩ <;> (simp [isPasswordAuth]; try omega)
    | some pw =>
      dsimp only
      by_cases he : pw.isEmpty = true
      · rw [if_pos he]
        refine ⟨?_, ?_, ?_, ?_, ?_⟩ <;> (simp [isPasswordAuth]; try omega)
      · rw [if_neg he]
        refine ⟨?_, ?_, ?_, ?_, ?_⟩ <;> (simp [isPasswordAuth]; try omega)
  · rw [if_neg hpw]
    by_cases hkb : (ms.contains kbStr && decide (s.keyboardRetryCount > 0)) = true
    · rw [if_pos hkb]
      refine ⟨?_, ?_, ?_, ?_, ?_⟩ <;> simp [isPasswordAuth]
    · rw [if_neg hkb]
      refine ⟨?_, ?_, ?_, ?_, ?_⟩ <;> simp [isPasswordAuth]

theorem authHandlerNoPk_exhausted (inv : AuthInvocation) (s : AuthState) (ms : List Str)
    (h : s.passwordRetryCount ≤ 0) :
    (ms.contains kbStr = true ∧ 0 < s.keyboardRetryCount →
      authHandlerNoPk inv s ms
        = (.keyboardInteractiveAuth (kbCollect inv.kbResponse inv.kbPromptCount 0).1,
            { s with keyboardRetryCount :=
              (if (kbCollect inv.kbResponse inv.kbPromptCount 0).2 then 0
                else s.keyboardRetryCount) - 1 })) ∧
    (¬(ms.contains kbStr = true ∧ 0 < s.keyboardRetryCount) →
      authHandlerNoPk inv s ms = (.endAuth, s)) := by
  have hpwf : ¬((ms.contains pwStr && decide (s.passwordRetryCount > 0)) = true) := by
    simp only [Bool.and_eq_true, decide_eq_true_eq]
    rintro ⟨-, hc⟩
    omega
  constructor
  · rintro ⟨hkb, hkc⟩
    have hkt : (ms.contains kbStr && decide (s.keyboardRetryCount > 0)) = true := by
      simp only [Bool.and_eq_true, decide_eq_true_eq]
      exact ⟨hkb, hkc⟩
    unfold authHandlerNoPk
    rw [if_neg hpwf, if_pos hkt]
  · intro hn
    have hkf : ¬((ms.contains kbStr && decide (s.keyboardRetryCount > 0)) = true) := by
      simp only [Bool.and_eq_true, decide_eq_true_eq]
      exact hn
    unfold authHandlerNoPk
    rw [if_neg hpwf, if_neg hkf]

theorem authHandler_pw_step (user : Str) (inv : AuthInvocation) (s : AuthState) :
    ((authHandler user inv s).2.passwordRetryCount
        + ((authHandler user inv s).2.pwPrompts : Int)
      = s.passwordRetryCount + (s.pwPrompts : Int)) ∧
    (authHandler user inv s).2.passwordRetryCount ≤ s.passwordRetryCount ∧
    (0 ≤ s.passwordRetryCount → 0 ≤ (authHandler user inv s).2.passwordRetryCount) ∧
    (isPasswordAuth (authHandler user inv s).1 = true →
      s.pwPrompts + 1 ≤ (authHandler user inv s).2.pwPrompts) ∧
    (s.pwPrompts ≤ (authHandler user inv s).2.pwPrompts) := by
  cases hml : inv.methodsLeft with
  | none =>
    rw [authHandler_eq_none user inv s hml]
    simp [isPasswordAuth]
  | some ms =>
    by_cases hpk : ms.contains pkStr = true ∧ s.identityKeys ≠ []
    · obtain ⟨hc, hk⟩ := hpk
      obtain ⟨key, restKeys, hk'⟩ : ∃ key restKeys, s.identityKeys = key :: restKeys := by
        cases hkk : s.identityKeys with
        | nil => exact absurd hkk hk
        | cons a b => exact ⟨a, b, rfl⟩
      rw [authHandler_eq_pk user inv s ms key restKeys hml hk' hc]
      obtain ⟨h2, h1⟩ := authHandlerPk_step inv s key restKeys
      rw [h2]
      rcases h1 with h1 | h1 <;> rw [h1] <;> simp [isPasswordAuth]
    · rw [authHandler_eq_noPk user inv s ms hml hpk]
      exact authHandlerNoPk_pw_step inv s ms

theorem authHandler_no_pw_after_budget (user : Str) (inv : AuthInvocation) (s : AuthState)
    (h : s.passwordRetryCount ≤ 0) :
    ∀ pw, (authHandler user inv s).1 ≠ .passwordAuth pw := by
  intro pw
  cases hml : inv.methodsLeft with
  | none =>
    rw [authHandler_eq_none user inv s hml]
    simp
  | some ms =>
    by_cases hpk : ms.contains pkStr = true ∧ s.identityKeys ≠ []
    · obtain ⟨hc, hk⟩ := hpk
      obtain ⟨key, restKeys, hk'⟩ : ∃ key restKeys, s.identityKeys = key :: restKeys := by
        cases hkk : s.identityKeys with
        | nil => exact absurd hkk hk
        | cons a b => exact ⟨a, b, rfl⟩
      rw [authHandler_eq_pk user inv s ms key restKeys hml hk' hc]
      rcases (authHandlerPk_step inv s key restKeys).2 with h1 | h1 <;> rw [h1] <;> simp
    · rw [authHandler_eq_noPk user inv s ms hml hpk]
      by_cases hkb : ms.contains kbStr = true ∧ 0 < s.keyboardRetryCount
      · rw [(authHandlerNoPk_exhausted inv s ms h).1 hkb]
        simp
      · rw [(authHandlerNoPk_exhausted inv s ms h).2 hkb]
        simp

theorem runAuthTrace_pw_invariant (user : Str) :
    ∀ (invs : List AuthInvocation) (s : AuthState), 0 ≤ s.passwordRetryCount →
      ((runAuthTrace user invs s).2.passwordRetryCount
          + ((runAuthTrace user invs s).2.pwPrompts : Int)
        = s.passwordRetryCount + (s.pwPrompts : Int)) ∧
      0 ≤ (runAuthTrace user invs s).2.passwordRetryCount ∧
      ((s.pwPrompts : Int) + (((runAuthTrace user invs s).1.countP isPasswordAuth : Nat) : Int)
        ≤ ((runAuthTrace user invs s).2.pwPrompts : Int)) := by
  intro invs
  induction invs with
  | nil =>
    intro s hs
    simp [runAuthTrace]
    exact hs
  | cons inv rest ih =>
    intro s hs
    have hstep := authHandler_pw_step user inv s
    have ih' := ih (authHandler user inv s).2 (hstep.2.2.1 hs)
    simp only [runAuthTrace, List.countP_cons]
    obtain ⟨e1, e2, e3, e4, e5⟩ := hstep
    obtain ⟨f1, f2, f3⟩ := ih'
    cases hb : isPasswordAuth (authHandler user inv s).1 with
    | false =>
      refine ⟨f1.trans e1, f2, ?_⟩
      simp only [hb, Bool.false_eq_true, if_false, Nat.add_zero]
      omega
    | true =>
      have e4' := e4 hb
      refine ⟨f1.trans e1, f2, ?_⟩
      simp only [hb, if_true]
      push_cast
      omega

/-- C6: invoked with no methods remaining (`methodsLeft` null), the auth
handler authenticates with the `none` method carrying the username; for any
other method list on which no branch applies (no publickey with candidates, no
budgeted password, no budgeted keyboard-interactive), it signals authentication
failure (`END_AUTH`). -/
theorem auth_none_and_exhausted (user : Str) (inv : AuthInvocation) (s : AuthState) :
    (inv.methodsLeft = none → authHandler user inv s = (.noneAuth user, s)) ∧
    (∀ ms, inv.methodsLeft = some ms →
      ¬(ms.contains pkStr = true ∧ s.identityKeys ≠ []) →
      ¬(ms.contains pwStr = true ∧ 0 < s.passwordRetryCount) →
      ¬(ms.contains kbStr = true ∧ 0 < s.keyboardRetryCount) →
      authHandler user inv s = (.endAuth, s)) := by
  constructor
  · intro h
    exact authHandler_eq_none user inv s h
  · intro ms hml hpk hpw hkb
    rw [authHandler_eq_noPk user inv s ms hml hpk]
    have hpwf : ¬((ms.contains pwStr && decide (s.passwordRetryCount > 0)) = true) := by
      simp only [Bool.and_eq_true, decide_eq_true_eq]
      exact hpw
    have hkbf : ¬((ms.contains kbStr && decide (s.keyboardRetryCount > 0)) = true) := by
      simp only [Bool.and_eq_true, decide_eq_true_eq]
      exact hkb
    unfold authHandlerNoPk
    rw [if_neg hpwf, if_neg hkbf]

/-- C6 witness: a null method list authenticates with `none`; a method list
offering only `hostbased` (no applicable branch) ends with failure. -/
theorem auth_none_and_exhausted_witness :
    authHandler (("alice").toList)
        ⟨none, fun _ => none, none, 0, fun _ => none⟩ (initAuthState [])
      = (.noneAuth (("alice").toList), initAuthState []) ∧
    authHandler (("alice").toList)
        ⟨some [("hostbased").toList], fun _ => none, none, 0, fun _ => none⟩
        (initAuthState [])
      = (.endAuth, initAuthState []) := by
  constructor
  · exact (auth_none_and_exhausted (("alice").toList)
      ⟨none, fun _ => none, none, 0, fun _ => none⟩ (initAuthState [])).1 rfl
  · exact (auth_none_and_exhausted (("alice").toList)
      ⟨some [("hostbased").toList], fun _ => none, none, 0, fun _ => none⟩
      (initAuthState [])).2 [("hostbased").toList] rfl
      (fun h => h.2 rfl)
      (fun h => absurd h.1 (by decide))
      (fun h => absurd h.1 (by decide))

/-- C3: over any sequence of auth-handler invocations of one connection
attempt, the password method is prompted for and submitted at most 3 times (the
budget is never reset); once the budget is exhausted no invocation ever submits
a password again, and an invocation offering password (without an applicable
publickey branch) falls through to keyboard-interactive when that method is
offered and budgeted, else signals authentication failure. -/
theorem auth_password_budget_bounded (user : Str) (keys : List SSHKeyModel)
    (invs : List AuthInvocation) :
    ((runAuthTrace user invs (initAuthState keys)).1.countP isPasswordAuth ≤ 3) ∧
    ((runAuthTrace user invs (initAuthState keys)).2.pwPrompts ≤ 3) ∧
    (∀ inv pw, (runAuthTrace user invs (initAuthState keys)).2.passwordRetryCount ≤ 0 →
      (authHandler user inv (runAuthTrace user invs (initAuthState keys)).2).1
        ≠ .passwordAuth pw) ∧
    (∀ inv ms, (runAuthTrace user invs (initAuthState keys)).2.passwordRetryCount ≤ 0 →
      inv.methodsLeft = some ms →
      ms.contains pwStr = true →
      ¬(ms.contains pkStr = true ∧
          (runAuthTrace user invs (initAuthState keys)).2.identityKeys ≠ []) →
      ((ms.contains kbStr = true ∧
          0 < (runAuthTrace user invs (initAuthState keys)).2.keyboardRetryCount →
        (authHandler user inv (runAuthTrace user invs (initAuthState keys)).2).1
          = .keyboardInteractiveAuth (kbCollect inv.kbResponse inv.kbPromptCount 0).1) ∧
       (¬(ms.contains kbStr = true ∧
          0 < (runAuthTrace user invs (initAuthState keys)).2.keyboardRetryCount) →
        (authHandler user inv (runAuthTrace user invs (initAuthState keys)).2).1
          = .endAuth))) := by
  have hinv := runAuthTrace_pw_invariant user invs (initAuthState keys)
    (by simp [initAuthState])
  simp only [initAuthState] at hinv
  obtain ⟨f1, f2, f3⟩ := hinv
  refine ⟨?_, ?_, ?_, ?_⟩
  · simp only [initAuthState]
    omega
  · simp only [initAuthState]
    omega
  · intro inv pw hex
    exact authHandler_no_pw_after_budget user inv _ hex pw
  · intro inv ms hex hml hpwms hpk
    rw [authHandler_eq_noPk user inv _ ms hml hpk]
    constructor
    · intro hkb
      rw [(authHandlerNoPk_exhausted inv _ ms hex).1 hkb]
    · intro hkb
      rw [(authHandlerNoPk_exhausted inv _ ms hex).2 hkb]

/-- C3 witness: three wrong passwords exhaust the budget; a fourth invocation
offering password and keyboard-interactive falls through to
keyboard-interactive, and at most 3 password submissions appear in the trace. -/
theorem auth_password_budget_bounded_witness :
    ((runAuthTrace (("alice").toList)
        [⟨some [pwStr], fun _ => none, some (("wrong").toList), 0, fun _ => none⟩,
          ⟨some [pwStr], fun _ => none, some (("wrong").toList), 0, fun _ => none⟩,
          ⟨some [pwStr], fun _ => none, some (("wrong").toList), 0, fun _ => none⟩]
        (initAuthState [])).1.countP isPasswordAuth ≤ 3) ∧
    (authHandler (("alice").toList)
        ⟨some [pwStr, kbStr], fun _ => none, some (("wrong").toList), 1,
          fun _ => some (("resp").toList)⟩
        (runAuthTrace (("alice").toList)
          [⟨some [pwStr], fun _ => none, some (("wrong").toList), 0, fun _ => none⟩,
            ⟨some [pwStr], fun _ => none, some (("wrong").toList), 0, fun _ => none⟩,
            ⟨some [pwStr], fun _ => none, some (("wrong").toList), 0, fun _ => none⟩]
          (initAuthState [])).2).1
      = .keyboardInteractiveAuth [("resp").toList] := by
  have h := auth_password_budget_bounded (("alice").toList) []
    [⟨some [pwStr], fun _ => none, some (("wrong").toList), 0, fun _ => none⟩,
      ⟨some [pwStr], fun _ => none, some (("wrong").toList), 0, fun _ => none⟩,
      ⟨some [pwStr], fun _ => none, some (("wrong").toList), 0, fun _ => none⟩]
  refine ⟨h.1, ?_⟩
  have h4 := (h.2.2.2
    ⟨some [pwStr, kbStr], fun _ => none, some (("wrong").toList), 1,
      fun _ => some (("resp").toList)⟩
    [pwStr, kbStr] (by decide) rfl (by decide)
    (fun hc => hc.2 rfl)).1 ⟨by decide, by decide⟩
  exact h4

theorem proxyFilter_eq_true (e : ProxyEntry) (req : Request) :
    proxyFilter e req = true ↔ req.remoteIdCookie = some e.sessionId := by
  simp [proxyFilter]

theorem find?_isSome_of_mem {α : Type} (p : α → Bool) (l : List α) (a : α)
    (ha : a ∈ l) (hp : p a = true) : ∃ b, l.find? p = some b := by
  induction l with
  | nil => cases ha
  | cons x xs ih =>
    by_cases hx : p x = true
    · exact ⟨x, List.find?_cons_of_pos xs hx⟩
    · rcases List.mem_cons.1 ha with rfl | ha'
      · exact absurd hp hx
      · obtain ⟨b, hb⟩ := ih ha'
        exact ⟨b, by rw [List.find?_cons_of_neg xs hx]; exact hb⟩

theorem find?_pairwise_first (proxies : List ProxyEntry) (req : Request)
    (hnd : proxies.Pairwise (fun a b => a.sessionId ≠ b.sessionId)) (e : ProxyEntry)
    (he : e ∈ proxies) (hc : req.remoteIdCookie = some e.sessionId) :
    proxies.find? (fun x => proxyFilter x req) = some e := by
  induction proxies with
  | nil => cases he
  | cons a rest ih =>
    obtain ⟨hhead, htail⟩ := List.pairwise_cons.1 hnd
    by_cases hpa : proxyFilter a req = true
    · have ha_eq : a = e := by
        rcases List.mem_cons.1 he with rfl | he'
        · rfl
        · exfalso
          have h1 : req.remoteIdCookie = some a.sessionId := (proxyFilter_eq_true a req).1 hpa
          rw [hc] at h1
          exact hhead e he' (Option.some.inj h1).symm
      rw [@List.find?_cons_of_pos _ (fun x => proxyFilter x req) a rest hpa, ha_eq]
    · have he' : e ∈ rest := by
        rcases List.mem_cons.1 he with rfl | he'
        · exact absurd ((proxyFilter_eq_true e req).2 hc) hpa
        · exact he'
      rw [@List.find?_cons_of_neg _ (fun x => proxyFilter x req) a rest hpa]
      exact ih htail he'

/-- C5: a request is forwarded to a session's proxy port exactly when its
`remoteId` cookie equals that live session's id; a request with no cookie, or a
cookie matching no live session, falls through to default handling; and
`GET /remote/status` is always answered locally — `{alive: true, name, type}`
when the cookie maps to a registered connection, `{alive: false}` otherwise —
never forwarded. -/
theorem routing_by_remote_id_cookie (registry : List RegisteredConnection)
    (proxies : List ProxyEntry) (req : Request) :
    (req.method = .get → req.path = ("/remote/status").toList →
      routeRequest registry proxies req = .statusResponse (statusHandler registry req) ∧
      (∀ rid c, req.remoteIdCookie = some rid → rid ≠ [] →
        getConnection registry rid = some c →
        statusHandler registry req = ⟨true, some c.name, some c.type⟩) ∧
      (req.remoteIdCookie = none → statusHandler registry req = ⟨false, none, none⟩) ∧
      (∀ rid, req.remoteIdCookie = some rid → rid ≠ [] →
        getConnection registry rid = none →
        statusHandler registry req = ⟨false, none, none⟩)) ∧
    (¬(req.method = .get ∧ req.path = ("/remote/status").toList) →
      ((∃ port, routeRequest registry proxies req = .forwarded port) ↔
        (∃ e ∈ proxies, req.remoteIdCookie = some e.sessionId)) ∧
      (req.remoteIdCookie = none → routeRequest registry proxies req = .fallthrough) ∧
      ((∀ e ∈ proxies, req.remoteIdCookie ≠ some e.sessionId) →
        routeRequest registry proxies req = .fallthrough) ∧
      (proxies.Pairwise (fun a b => a.sessionId ≠ b.sessionId) →
        ∀ e ∈ proxies, req.remoteIdCookie = some e.sessionId →
          routeRequest registry proxies req = .forwarded e.port)) := by
  constructor
  · intro hm hp
    refine ⟨?_, ?_, ?_, ?_⟩
    · unfold routeRequest
      rw [if_pos ⟨hm, hp⟩]
    · intro rid c hc hne hget
      unfold statusHandler
      rw [hc]
      dsimp only
      rw [if_neg (by simp [List.isEmpty_iff]; exact hne), hget]
    · intro hc
      unfold statusHandler
      rw [hc]
    · intro rid hc hne hget
      unfold statusHandler
      rw [hc]
      dsimp only
      rw [if_neg (by simp [List.isEmpty_iff]; exact hne), hget]
  · intro hns
    have hroute_eq : routeRequest registry proxies req
        = (match proxies.find? (fun e => proxyFilter e req) with
            | some e => .forwarded e.port
            | none => .fallthrough) := by
      unfold routeRequest
      rw [if_neg hns]
    refine ⟨?_, ?_, ?_, ?_⟩
    · constructor
      · rintro ⟨port, hport⟩
        rw [hroute_eq] at hport
        cases hf : proxies.find? (fun e => proxyFilter e req) with
        | none =>
          rw [hf] at hport
          exact RouteOutcome.noConfusion hport
        | some e =>
          exact ⟨e, List.mem_of_find?_eq_some hf,
            (proxyFilter_eq_true e req).1
              (@List.find?_some _ (fun x => proxyFilter x req) e proxies hf)⟩
      · rintro ⟨e, he, hc⟩
        obtain ⟨b, hb⟩ := find?_isSome_of_mem (fun x => proxyFilter x req) proxies e he
          ((proxyFilter_eq_true e req).2 hc)
        exact ⟨b.port, by rw [hroute_eq, hb]⟩
    · intro hc
      rw [hroute_eq]
      have hnone : proxies.find? (fun e => proxyFilter e req) = none := by
        rw [List.find?_eq_none]
        intro x _
        rw [proxyFilter_eq_true, hc]
        simp
      rw [hnone]
    · intro hall
      rw [hroute_eq]
      have hnone : proxies.find? (fun e => proxyFilter e req) = none := by
        rw [List.find?_eq_none]
        intro x hx
        rw [proxyFilter_eq_true]
        exact hall x hx
      rw [hnone]
    · intro hnd e he hc
      rw [hroute_eq, find?_pairwise_first proxies req hnd e he hc]

/-- C5 witness: one live session `s1` on port 33000: the status request answers
locally with its name and type, a matching non-status request is forwarded to
port 33000, and a cookieless request falls through. -/
theorem routing_by_remote_id_cookie_witness :
    routeRequest [⟨("s1").toList, ("host1").toList, ("SSH").toList⟩]
        [⟨("s1").toList, 33000⟩]
        ⟨.get, ("/remote/status").toList, some (("s1").toList)⟩
      = .statusResponse ⟨true, some (("host1").toList), some (("SSH").toList)⟩ ∧
    routeRequest [⟨("s1").toList, ("host1").toList, ("SSH").toList⟩]
        [⟨("s1").toList, 33000⟩] ⟨.other, ("/foo").toList, some (("s1").toList)⟩
      = .forwarded 33000 ∧
    routeRequest [⟨("s1").toList, ("host1").toList, ("SSH").toList⟩]
        [⟨("s1").toList, 33000⟩] ⟨.other, ("/foo").toList, none⟩
      = .fallthrough := by
  refine ⟨?_, ?_, ?_⟩
  · have h := (routing_by_remote_id_cookie
      [⟨("s1").toList, ("host1").toList, ("SSH").toList⟩] [⟨("s1").toList, 33000⟩]
      ⟨.get, ("/remote/status").toList, some (("s1").toList)⟩).1 rfl rfl
    rw [h.1, h.2.1 (("s1").toList) ⟨("s1").toList, ("host1").toList, ("SSH").toList⟩
      rfl (by decide) rfl]
  · exact ((routing_by_remote_id_cookie
      [⟨("s1").toList, ("host1").toList, ("SSH").toList⟩] [⟨("s1").toList, 33000⟩]
      ⟨.other, ("/foo").toList, some (("s1").toList)⟩).2 (by decide)).2.2.2
      (by simp) ⟨("s1").toList, 33000⟩ (by simp) rfl
  · exact ((routing_by_remote_id_cookie
      [⟨("s1").toList, ("host1").toList, ("SSH").toList⟩] [⟨("s1").toList, 33000⟩]
      ⟨.other, ("/foo").toList, none⟩).2 (by decide)).2.1 rfl

/-- C8: firing a session's disconnect handler closes that session's proxy
server, splices its proxy router layer out of the router stack, and removes its
registry entry, while every other session's resources are untouched. -/
theorem disconnect_disposes_session_resources (w : BackendWorld) (id : Str)
    (h1 : w.servers.Nodup) (h2 : w.routerStack.Nodup) (h3 : w.registry.Nodup) :
    id ∉ (onDisconnect id w).servers ∧
    id ∉ (onDisconnect id w).routerStack ∧
    id ∉ (onDisconnect id w).registry ∧
    (∀ j, j ≠ id →
      ((j ∈ (onDisconnect id w).servers ↔ j ∈ w.servers) ∧
        (j ∈ (onDisconnect id w).routerStack ↔ j ∈ w.routerStack) ∧
        (j ∈ (onDisconnect id w).registry ↔ j ∈ w.registry))) := by
  unfold onDisconnect disposeRegistration disposeProxyRouter closeServer
  refine ⟨h1.not_mem_erase, h2.not_mem_erase, h3.not_mem_erase, ?_⟩
  intro j hj
  exact ⟨List.mem_erase_of_ne hj, List.mem_erase_of_ne hj, List.mem_erase_of_ne hj⟩

/-- C8 witness: with sessions `s1` and `s2` live, disconnecting `s1` removes
all of its resources and leaves every resource of `s2` in place. -/
theorem disconnect_disposes_session_resources_witness :
    (("s1").toList) ∉ (onDisconnect (("s1").toList)
      ⟨[("s1").toList, ("s2").toList], [("s1").toList, ("s2").toList],
        [("s1").toList, ("s2").toList]⟩).servers ∧
    (("s1").toList) ∉ (onDisconnect (("s1").toList)
      ⟨[("s1").toList, ("s2").toList], [("s1").toList, ("s2").toList],
        [("s1").toList, ("s2").toList]⟩).routerStack ∧
    (("s1").toList) ∉ (onDisconnect (("s1").toList)
      ⟨[("s1").toList, ("s2").toList], [("s1").toList, ("s2").toList],
        [("s1").toList, ("s2").toList]⟩).registry ∧
    ((("s2").toList) ∈ (onDisconnect (("s1").toList)
      ⟨[("s1").toList, ("s2").toList], [("s1").toList, ("s2").toList],
        [("s1").toList, ("s2").toList]⟩).servers ↔
      (("s2").toList) ∈ [("s1").toList, ("s2").toList]) := by
  have h := disconnect_disposes_session_resources
    ⟨[("s1").toList, ("s2").toList], [("s1").toList, ("s2").toList],
      [("s1").toList, ("s2").toList]⟩ (("s1").toList)
    (by decide) (by decide) (by decide)
  exact ⟨h.1, h.2.1, h.2.2.1, (h.2.2.2 (("s2").toList) (by decide)).1⟩

end TheiaRemote
